import Mathlib

/-!
Verification development for the go-monorepo repository: a shallow embedding
of the two near-duplicate service bootstraps (`src/todo/main.go` and the
unnamed bootstrap `src/unnamed/part_000`), covering the panic-recovery
handler, the gRPC interceptor chain, the message-of-the-day (MOTD) variable
watcher, the lock-guarded shared-state cell, and the startup/exit paths of
both `start` functions.
-/

namespace Monorepo

/-- Dynamic Go value: Go `interface{}` values as they occur in the embedded
code (panic payloads, `runtimevar` snapshot values).  A value is either a
string or some other value, kept abstract by its rendering. -/
inductive GoValue where
  | str (s : String)
  | other (tag : String)
deriving DecidableEq, Repr

/-- Whether a dynamic Go value is a string (the type assertion
`x.(string)` succeeds exactly on these). -/
def GoValue.isString : GoValue → Bool
  | .str _ => true
  | .other _ => false

/-- Rendering of a Go value by `%s` / `%v` / `Println`: a string renders as
itself; a non-string value renders as its abstract tag. -/
def goFormat : GoValue → String
  | .str s => s
  | .other tag => tag

/-- Log severity levels of the logrus logger used by `src/todo/main.go`.
The standard-library `log` package used by `src/unnamed/part_000` has no
levels; its events carry severity `none` (see `LogEvent`). -/
inductive Severity where
  | debug
  | info
  | warn
  | error
  | fatal
deriving DecidableEq, Repr

/-- A single log event: optional severity (the unnamed bootstrap logs with
the unleveled standard `log` package, severity `none`) and the message. -/
structure LogEvent where
  sev : Option Severity
  msg : String
deriving DecidableEq, Repr

/-- gRPC status codes used by the embedded code (`google.golang.org/grpc/codes`);
only the ones the source mentions are modelled. -/
inductive Code where
  | ok
  | internal
  | unavailable
deriving DecidableEq, Repr

/-- A gRPC status error as built by `status.Errorf(code, format, args...)`. -/
structure GrpcStatus where
  code : Code
  msg : String
deriving DecidableEq, Repr

/-- Result of running a recovery handler on a panic value: the log event it
emits and the error it returns to the gRPC machinery. -/
structure RecoveryOutput where
  logged : LogEvent
  returned : GrpcStatus
deriving DecidableEq, Repr

/-- Embeds `panicHandler` of `src/todo/main.go` lines 49-54: it fills a
64KiB buffer with `runtime.Stack(buf, true)` (the stack trace, passed here
as the `stack` argument), logs `"panic recovered: %+v"` of that trace with
logrus `log.Errorf` (error severity), and returns
`status.Errorf(codes.Internal, "%s", p)` — it returns an error value, it
does not re-panic. -/
def panicHandlerTodo (stack : String) (p : GoValue) : RecoveryOutput :=
  { logged := { sev := some .error, msg := "panic recovered: " ++ stack }
    returned := { code := .internal, msg := goFormat p } }

/-- Embeds `panicHandler` of `src/unnamed/part_000` lines 55-60: identical
to the todo variant except that the stack trace is logged with the
standard-library `log.Printf`, which carries no severity level. -/
def panicHandlerUnnamed (stack : String) (p : GoValue) : RecoveryOutput :=
  { logged := { sev := none, msg := "panic recovered: " ++ stack }
    returned := { code := .internal, msg := goFormat p } }

/-- The five interceptor stages installed by `grpc.NewServer` in
`src/todo/main.go` lines 91-106. -/
inductive Stage where
  | ctxtags
  | opentracing
  | prometheus
  | logrus
  | recovery
deriving DecidableEq, Repr

/-- The stream interceptor chain of `src/todo/main.go` lines 92-98, in the
order passed to `grpc_middleware.ChainStreamServer`: the first element is
the outermost stage, the last element directly wraps the handler. -/
def streamChain : List Stage :=
  [.ctxtags, .opentracing, .prometheus, .logrus, .recovery]

/-- The unary interceptor chain of `src/todo/main.go` lines 99-105, in the
order passed to `grpc_middleware.ChainUnaryServer`. -/
def unaryChain : List Stage :=
  [.ctxtags, .opentracing, .prometheus, .logrus, .recovery]

/-- Outcome of invoking a handler (or of a partially unwound call): a
normal response, a returned gRPC error, or an in-flight panic. -/
inductive Outcome where
  | ok (resp : GoValue)
  | err (st : GrpcStatus)
  | panicked (p : GoValue)
deriving DecidableEq, Repr

/-- Result of one call through (a suffix of) the interceptor chain: the
outcome propagated outward, the completed-call outcomes observed by each
observability stage (a stage that a panic unwinds through observes no
completed call), and the log events emitted. -/
structure CallResult where
  outcome : Outcome
  observations : List (Stage × Outcome)
  logs : List LogEvent
deriving DecidableEq, Repr

/-- A registered gRPC handler: request to outcome (a Go handler that panics
is embedded as one returning `Outcome.panicked`). -/
def Handler : Type := GoValue → Outcome

/-- Semantics of one interceptor stage wrapping an inner call result, from
the middleware packages used in `src/todo/main.go`:
`grpc_recovery` (with `WithRecoveryHandler(panicHandler)`) converts an
in-flight panic into the handler's returned error and emits its log; every
other stage records the completed outcome it observes and passes it through
untouched, and a panic unwinding through it is not observed as a completed
call. -/
def runStage (stack : String) (s : Stage) (r : CallResult) : CallResult :=
  match s with
  | .recovery =>
    match r.outcome with
    | .panicked p =>
      let h := panicHandlerTodo stack p
      { outcome := .err h.returned
        observations := r.observations
        logs := r.logs ++ [h.logged] }
    | _ => r
  | st =>
    match r.outcome with
    | .panicked _ => r
    | o => { r with observations := r.observations ++ [(st, o)] }

/-- Runs a call through a chain of interceptor stages around a handler.
The head of the list is the outermost stage, matching
`grpc_middleware.ChainUnaryServer` / `ChainStreamServer` semantics. -/
def runChain (stack : String) : List Stage → Handler → GoValue → CallResult
  | [], h, req => { outcome := h req, observations := [], logs := [] }
  | s :: rest, h, req => runStage stack s (runChain stack rest h req)

/-- The gRPC server dispatching a sequence of calls: each inbound request
runs independently through the full unary chain (the server keeps no
per-call state across dispatches). -/
def serveCalls (stack : String) (h : Handler) (reqs : List GoValue) : List CallResult :=
  reqs.map (runChain stack unaryChain h)

/-- A `runtimevar.Snapshot` as consumed by `watchMOTDVar`
(`src/unnamed/part_000`): only its `Value` field (an `interface{}`) is
used by the embedded code. -/
structure Snapshot where
  value : GoValue
deriving DecidableEq, Repr

/-- Control flow produced by one execution of a Go loop body: continue with
a new MOTD state, break or return out of the loop (never used by
`watchMOTDVar`, whose body contains neither), or a runtime panic. -/
inductive IterControl where
  | cont (motd : String)
  | brk (motd : String)
  | ret (motd : String)
  | panicked (p : String)
deriving DecidableEq, Repr

/-- Result of one iteration of the watch loop: its control flow, the log
events it emitted, and the delay (in milliseconds) it sleeps before the
next iteration — the source contains no sleep, so this is always 0. -/
structure WatchIter where
  control : IterControl
  logs : List LogEvent
  delayMs : Nat
deriving DecidableEq, Repr

/-- Embeds one iteration of the `for` loop of `watchMOTDVar`
(`src/unnamed/part_000` lines 115-128), with the result of `v.Watch(ctx)`
passed in.  On a watch error: `log.Printf("watch MOTD variable: %v", err)`
and `continue` (MOTD unchanged, no delay).  On success:
`log.Println("updated MOTD to", snap.Value)`, then `app.mu.Lock()` and the
unguarded type assertion `snap.Value.(string)` — which stores the string
when the assertion succeeds and panics at runtime when the snapshot value
is not a string. -/
def watchIter (motd : String) (r : Except String Snapshot) : WatchIter :=
  match r with
  | .error e =>
    { control := .cont motd
      logs := [{ sev := none, msg := "watch MOTD variable: " ++ e }]
      delayMs := 0 }
  | .ok snap =>
    match snap.value with
    | .str s =>
      { control := .cont s
        logs := [{ sev := none, msg := "updated MOTD to " ++ goFormat snap.value }]
        delayMs := 0 }
    | .other tag =>
      { control := .panicked "interface conversion: interface {} is not string"
        logs := [{ sev := none, msg := "updated MOTD to " ++ goFormat (.other tag) }]
        delayMs := 0 }

/-- Observable status of the watcher task after consuming a finite prefix
of watch results: still running (the loop goes on), returned normally
(never produced by `watchMOTDVar`), or crashed on an unrecovered panic —
`watchMOTDVar` is launched by `newApplication` as a bare goroutine
(`go app.watchMOTDVar(motdVar)`, line 109) with no recovery interceptor
around it, so a crash terminates the goroutine and the Go process. -/
inductive WatchRun where
  | running (motd : String) (logs : List LogEvent)
  | returned (motd : String) (logs : List LogEvent)
  | crashed (p : String) (logs : List LogEvent)
deriving DecidableEq, Repr

/-- Whether the watcher loop terminated normally (by break or return). -/
def WatchRun.isReturned : WatchRun → Bool
  | .returned _ _ => true
  | _ => false

/-- Whether the watcher task crashed on an unrecovered panic. -/
def WatchRun.isCrashed : WatchRun → Bool
  | .crashed _ _ => true
  | _ => false

/-- Runs the infinite `for` loop of `watchMOTDVar` over a finite prefix of
watch results, threading the MOTD value and accumulating logs. -/
def runWatch (motd : String) (logs : List LogEvent) :
    List (Except String Snapshot) → WatchRun
  | [] => .running motd logs
  | r :: rs =>
    let it := watchIter motd r
    match it.control with
    | .cont m => runWatch m (logs ++ it.logs) rs
    | .brk m => .returned m (logs ++ it.logs)
    | .ret m => .returned m (logs ++ it.logs)
    | .panicked p => .crashed p (logs ++ it.logs)

/-- Program counter of the single writer (the watcher performing
`app.mu.Lock(); app.motd = v; app.mu.Unlock()`, `src/unnamed/part_000`
lines 124-126).  A Go string assignment writes a two-word string header;
to make torn reads expressible the stored value is written in two separate
machine steps (`wroteA` = first half written, write still incomplete). -/
inductive WriterPC where
  | idle
  | locked (wid : Nat)
  | wroteA (wid : Nat)
  | wroteB (wid : Nat)
deriving DecidableEq, Repr

/-- State of the SharedState cell (the `motd` field of `application`,
`src/unnamed/part_000` lines 88-96) together with its `sync.RWMutex`.
The stored value is represented by two half-words `partA`/`partB`, each
stamped with the id of the write that produced it (0 = the zero value from
construction, k+1 = the k-th `set`); a coherent cell has `partA = partB`.
`writes` records, in order, every value passed to `set`. -/
structure CellState where
  writerHeld : Bool
  readers : List Nat
  partA : Nat
  partB : Nat
  wpc : WriterPC
  writes : List String
deriving DecidableEq, Repr

/-- The cell as created by `newApplication` (`src/unnamed/part_000` lines
99-111): the `motd` field is omitted from the struct literal, so it holds
the Go zero value `""` (write id 0), the lock is free, and no `set` has
happened. -/
def initCell : CellState :=
  { writerHeld := false, readers := [], partA := 0, partB := 0
    wpc := .idle, writes := [] }

/-- Decodes a write id into the stored string: id 0 is the zero value from
construction, id k+1 is the k-th written value. -/
def valueOfId (ws : List String) (k : Nat) : String :=
  if k = 0 then "" else ws.getD (k - 1) ""

/-- Atomic actions on the cell.  The four `w`-actions embed the watcher's
`mu.Lock(); motd = v (two half-word stores); mu.Unlock()` from
`src/unnamed/part_000` lines 124-126.  The three `r`-actions embed a
reader `r` performing `mu.RLock(); _ = motd; mu.RUnlock()`. -/
inductive Action where
  | wLock (v : String)
  | wWriteA
  | wWriteB
  | wUnlock
  | rLock (r : Nat)
  | rRead (r : Nat)
  | rUnlock (r : Nat)
deriving DecidableEq, Repr

/-- Whether an action is one of the writer's (lock-guarded `set`) actions. -/
def Action.isWriterAction : Action → Bool
  | .wLock _ => true
  | .wWriteA => true
  | .wWriteB => true
  | .wUnlock => true
  | _ => false

/-- The watcher's locked update `mu.Lock(); motd = v; mu.Unlock()`
(`src/unnamed/part_000` lines 124-126) as its action sequence. -/
def watcherSet (v : String) : List Action := [.wLock v, .wWriteA, .wWriteB, .wUnlock]

/-- Modelled from the spec: the `get` operation of the SharedState cell
(spec section 4.1) performed by a request handler `r` — no handler code
reading `motd` is present under `src/`, so the read side
`mu.RLock(); v := motd; mu.RUnlock()` is modelled from the spec's
read/write-lock contract. -/
def readerGet (r : Nat) : List Action := [.rLock r, .rRead r, .rUnlock r]

/-- One completed read: the reader id, the write ids stamped on the two
halves it read (unequal ids would be a torn read), and the value decoded
from the first half against the writes list at read time. -/
structure Obs where
  reader : Nat
  idA : Nat
  idB : Nat
  value : String
deriving DecidableEq, Repr

/-- Small-step semantics of the cell under the `sync.RWMutex` discipline:
`wLock` needs the lock free of writers and readers, `rLock` needs it free
of writers (readers may share), the two half-word stores need the write
lock, and a read needs the read lock.  Disabled actions yield `none` (the
acting goroutine is blocked).  `rRead` additionally produces the
observation of the read. -/
def step (s : CellState) : Action → Option (CellState × Option Obs)
  | .wLock v =>
    match s.wpc, s.writerHeld, s.readers with
    | .idle, false, [] =>
      some ({ s with writerHeld := true
                     wpc := .locked (s.writes.length + 1)
                     writes := s.writes ++ [v] }, none)
    | _, _, _ => none
  | .wWriteA =>
    match s.wpc with
    | .locked wid => some ({ s with partA := wid, wpc := .wroteA wid }, none)
    | _ => none
  | .wWriteB =>
    match s.wpc with
    | .wroteA wid => some ({ s with partB := wid, wpc := .wroteB wid }, none)
    | _ => none
  | .wUnlock =>
    match s.wpc with
    | .wroteB _ => some ({ s with writerHeld := false, wpc := .idle }, none)
    | _ => none
  | .rLock r =>
    if s.writerHeld then none
    else if s.readers.contains r then none
    else some ({ s with readers := r :: s.readers }, none)
  | .rRead r =>
    if s.readers.contains r then
      some (s, some { reader := r, idA := s.partA, idB := s.partB
                      value := valueOfId s.writes s.partA })
    else none
  | .rUnlock r =>
    if s.readers.contains r then
      some ({ s with readers := s.readers.erase r }, none)
    else none

/-- Runs a finite interleaving of cell actions, accumulating the read
observations; `none` means some action in the list was taken while
disabled (not a real schedule). -/
def runTrace (s : CellState) (obs : List Obs) :
    List Action → Option (CellState × List Obs)
  | [] => some (s, obs)
  | a :: rest =>
    match step s a with
    | none => none
    | some (s2, o) => runTrace s2 (obs ++ o.toList) rest

/-- The values passed to `set` (i.e. carried by `wLock`) in a trace, in
trace order. -/
def wLockValues : List Action → List String
  | [] => []
  | .wLock v :: rest => v :: wLockValues rest
  | _ :: rest => wLockValues rest

/-- Per-writer-state part of the cell invariant, relating the writer's
program counter, the two half-word stamps, and the number of writes so
far: with the writer idle both halves carry the id of the last completed
write; mid-write the halves are a mix of the previous and the current
write id. -/
def InvW : WriterPC → Nat → Nat → Nat → Prop
  | .idle, a, b, n => a = n ∧ b = n
  | .locked k, a, b, n => k = n ∧ 0 < n ∧ a = n - 1 ∧ b = n - 1
  | .wroteA k, a, b, n => k = n ∧ 0 < n ∧ a = n ∧ b = n - 1
  | .wroteB k, a, b, n => k = n ∧ 0 < n ∧ a = n ∧ b = n

/-- The cell invariant: readers hold the lock only while the writer is
idle, the `writerHeld` flag mirrors the writer's program counter, and the
half-word stamps satisfy `InvW`. -/
def Inv (s : CellState) : Prop :=
  (s.readers ≠ [] → s.wpc = .idle) ∧
  (s.writerHeld = false ↔ s.wpc = .idle) ∧
  InvW s.wpc s.partA s.partB s.writes.length

/-- Observable process status of a bootstrap `start` function: still up
and serving (blocked in `http.ListenAndServe`), terminated by
`log.Fatal*` (which calls `os.Exit(1)` and skips deferred functions), or
terminated by a runtime panic (which runs deferred functions and exits
with status 2). -/
inductive ProcState where
  | serving
  | fatalLog (msg : String)
  | panicked (msg : String)
deriving DecidableEq, Repr

/-- The process exit status: `none` while still serving, 1 for
`log.Fatal*`, 2 for an unrecovered panic. -/
def ProcState.exitCode : ProcState → Option Nat
  | .serving => none
  | .fatalLog _ => some 1
  | .panicked _ => some 2

/-- Whether the process terminated (any way) instead of serving. -/
def ProcState.isFatal : ProcState → Bool
  | .serving => false
  | _ => true

/-- Externally-acquired resources of the todo bootstrap
(`src/todo/main.go`): the gRPC listener from `net.Listen`, the Jaeger
tracer handle from `cfg.New` (whose `closer` is the only resource with a
`defer ... Close()`), and the PostgreSQL connection from `pg.Connect`. -/
inductive Resource where
  | listener
  | tracerHandle
  | dbConn
deriving DecidableEq, Repr

/-- Outcomes of the fallible external calls made by `start` in
`src/todo/main.go`: `net.Listen`, `cfg.New` (Jaeger), `grpc.Dial`, and
`api.RegisterTodoServiceHandler`. -/
structure TodoStartInput where
  bindGrpc : String
  listenRes : Except String Unit
  tracerRes : Except String Unit
  dialRes : Except String Unit
  registerRes : Except String Unit
deriving Repr

/-- Result of running the todo `start`: the process status, the resources
acquired on the path taken, the resources released before/at process exit
(via deferred calls — `log.Fatal*` skips them, a panic runs them), and the
log events emitted. -/
structure TodoStartResult where
  proc : ProcState
  acquired : List Resource
  released : List Resource
  logs : List LogEvent
deriving DecidableEq, Repr

/-- Embeds `start` of `src/todo/main.go` lines 56-146.
Paths, in source order: `net.Listen` failure → `log.Fatalf` (exit 1,
nothing acquired); Jaeger `cfg.New` failure → `logger.Fatalf` (exit 1,
listener acquired but not released); after `defer closer.Close()` and
`pg.Connect`, a `grpc.Dial` failure → `panic("Couldn't contact grpc
server")` and a `RegisterTodoServiceHandler` failure → `panic("Cannot
serve http api")` (both run the deferred tracer close, exit 2); otherwise
the function blocks in `http.ListenAndServe` (serving, defers pending, so
nothing released).  Log events: the fatal/informational prints on the
modelled paths; `pg.Connect` has no eager failure path and
`db.CreateTable`'s error is discarded by the source, so neither branches. -/
def startTodo (i : TodoStartInput) : TodoStartResult :=
  match i.listenRes with
  | .error _ =>
    { proc := .fatalLog ("Failed to listen: " ++ i.bindGrpc)
      acquired := [], released := []
      logs := [{ sev := some .fatal, msg := "Failed to listen: " ++ i.bindGrpc }] }
  | .ok _ =>
    match i.tracerRes with
    | .error e =>
      { proc := .fatalLog ("Cannot initialize Jaeger Tracer " ++ e)
        acquired := [.listener], released := []
        logs := [{ sev := some .fatal, msg := "Cannot initialize Jaeger Tracer " ++ e }] }
    | .ok _ =>
      match i.dialRes with
      | .error _ =>
        { proc := .panicked "Couldn't contact grpc server"
          acquired := [.listener, .tracerHandle, .dbConn]
          released := [.tracerHandle]
          logs := [{ sev := some .info, msg := "Starting Todo service.." }] }
      | .ok _ =>
        match i.registerRes with
        | .error _ =>
          { proc := .panicked "Cannot serve http api"
            acquired := [.listener, .tracerHandle, .dbConn]
            released := [.tracerHandle]
            logs := [{ sev := some .info, msg := "Starting Todo service.." }] }
        | .ok _ =>
          { proc := .serving
            acquired := [.listener, .tracerHandle, .dbConn]
            released := []
            logs := [{ sev := some .info, msg := "Starting Todo service.." }] }

/-- Inputs of `start` in `src/unnamed/part_000`: the `-env` flag, and the
outcomes of `setupLocal`, `net.Listen`, `grpc.Dial`, and
`todo.RegisterTodoServiceHandler`. -/
structure UnnamedStartInput where
  env : String
  bindGrpc : String
  setupRes : Except String Unit
  listenRes : Except String Unit
  dialRes : Except String Unit
  registerRes : Except String Unit
deriving Repr

/-- Result of running the unnamed `start`: the process status, whether the
setup-provided cleanup routine was registered (`defer cleanup()`, line
153) and whether it actually ran before process exit, whether the HTTP
gateway reached `http.ListenAndServe` (serving, possibly degraded), and
the log events emitted. -/
structure UnnamedStartResult where
  proc : ProcState
  cleanupRegistered : Bool
  cleanupInvoked : Bool
  gatewayServing : Bool
  logs : List LogEvent
deriving DecidableEq, Repr

/-- Embeds `start` of `src/unnamed/part_000` lines 130-200.
Paths: env `"gcp"`/`"aws"` fall through the switch with `app = nil` and
`cleanup = nil` (their setup calls are commented out), pass the nil error
check, register a nil `cleanup` and then panic dereferencing `app.db`
(the nil deferred function cannot run as a cleanup routine); an unknown
env → `log.Fatalf` (exit 1, defers skipped); for `"local"`, a `setupLocal`
error → `log.Fatal(err)` on line 151, *before* `defer cleanup()` on line
153, so the cleanup routine is neither registered nor invoked; after the
defer, a `net.Listen` failure → `log.Printf` then `panic(err)` (defers
run, cleanup invoked, exit 2); `grpc.Dial` and handler-registration
failures are only logged (`log.Printf`) and the function proceeds to
`http.ListenAndServe` — the gateway serves degraded.  Only
failure-relevant log events are modelled; the informational
`Starting ... service` prints are elided. -/
def startUnnamed (i : UnnamedStartInput) : UnnamedStartResult :=
  if i.env = "local" then
    match i.setupRes with
    | .error e =>
      { proc := .fatalLog e
        cleanupRegistered := false, cleanupInvoked := false
        gatewayServing := false
        logs := [{ sev := none, msg := e }] }
    | .ok _ =>
      match i.listenRes with
      | .error e =>
        { proc := .panicked e
          cleanupRegistered := true, cleanupInvoked := true
          gatewayServing := false
          logs := [{ sev := none, msg := "Failed to listen: 127.0.0.1:" ++ i.bindGrpc }] }
      | .ok _ =>
        { proc := .serving
          cleanupRegistered := true, cleanupInvoked := false
          gatewayServing := true
          logs :=
            (match i.dialRes with
              | .error e => [{ sev := none, msg := "Couldn't contact grpc server: " ++ e }]
              | .ok _ => []) ++
            (match i.registerRes with
              | .error e => [{ sev := none, msg := "Cannot serve http api, " ++ e }]
              | .ok _ => []) }
  else if i.env = "gcp" ∨ i.env = "aws" then
    { proc := .panicked "runtime error: invalid memory address or nil pointer dereference"
      cleanupRegistered := false, cleanupInvoked := false
      gatewayServing := false, logs := [] }
  else
    { proc := .fatalLog ("unknown -env=" ++ i.env)
      cleanupRegistered := false, cleanupInvoked := false
      gatewayServing := false
      logs := [{ sev := none, msg := "unknown -env=" ++ i.env }] }

/-- Soundness of one observation against a list of written values: the two
halves carry the same write id (no torn read), id 0 decodes to the zero
value from construction, and a nonzero id decodes to one of the values
actually written. -/
def ObsOk (ws : List String) (ob : Obs) : Prop :=
  ob.idA = ob.idB ∧ (ob.idA = 0 → ob.value = "") ∧ (0 < ob.idA → ob.value ∈ ws)

/-- The values carried by the `wLock` actions of a single cons cell. -/
def wLockVal : Action → List String
  | .wLock v => [v]
  | _ => []

/-- A concrete schedule: one reader completes a get before the watcher
performs its only set (of "hello"). -/
def c7Trace : List Action :=
  [.rLock 0, .rRead 0, .rUnlock 0, .wLock "hello", .wWriteA, .wWriteB, .wUnlock]

theorem wLockValues_cons (a : Action) (rest : List Action) :
    wLockValues (a :: rest) = wLockVal a ++ wLockValues rest := by
  cases a <;> rfl

theorem stepWritesEq (s : CellState) (a : Action) (s2 : CellState) (o : Option Obs)
    (h : step s a = some (s2, o)) : s2.writes = s.writes ++ wLockVal a := by
  obtain ⟨wh, rds, pA, pB, wpc, ws⟩ := s
  cases a with
  | wLock v =>
    cases wpc <;> cases wh <;> cases rds <;> simp only [step] at h <;> cases h
    rfl
  | wWriteA =>
    cases wpc <;> simp only [step] at h <;> cases h <;> simp [wLockVal]
  | wWriteB =>
    cases wpc <;> simp only [step] at h <;> cases h <;> simp [wLockVal]
  | wUnlock =>
    cases wpc <;> simp only [step] at h <;> cases h <;> simp [wLockVal]
  | rLock r =>
    simp only [step] at h
    split at h
    · cases h
    · split at h
      · cases h
      · cases h; simp [wLockVal]
  | rRead r =>
    simp only [step] at h
    split at h
    · cases h; simp [wLockVal]
    · cases h
  | rUnlock r =>
    simp only [step] at h
    split at h
    · cases h; simp [wLockVal]
    · cases h

theorem runWritesEq (tr : List Action) (s : CellState) (obs : List Obs)
    (sf : CellState) (obsf : List Obs) (h : runTrace s obs tr = some (sf, obsf)) :
    sf.writes = s.writes ++ wLockValues tr := by
  induction tr generalizing s obs with
  | nil =>
    simp only [runTrace, Option.some.injEq, Prod.mk.injEq] at h
    rw [← h.1]
    simp [wLockValues]
  | cons a rest ih =>
    simp only [runTrace] at h
    cases hst : step s a with
    | none => rw [hst] at h; cases h
    | some p =>
      obtain ⟨s2, o⟩ := p
      rw [hst] at h
      have h2 := ih s2 (obs ++ o.toList) h
      rw [h2, stepWritesEq s a s2 o hst, wLockValues_cons, List.append_assoc]

theorem stepInv (s : CellState) (a : Action) (s2 : CellState) (o : Option Obs)
    (hInv : Inv s) (h : step s a = some (s2, o)) : Inv s2 := by
  obtain ⟨wh, rds, pA, pB, wpc, ws⟩ := s
  obtain ⟨hrd, hwh, hw⟩ := hInv
  replace hrd : rds ≠ [] → wpc = WriterPC.idle := hrd
  replace hwh : wh = false ↔ wpc = WriterPC.idle := hwh
  replace hw : InvW wpc pA pB ws.length := hw
  cases a with
  | wLock v =>
    cases wpc <;> cases wh <;> cases rds <;> simp only [step] at h <;> cases h
    simp only [InvW] at hw
    obtain ⟨ha, hb⟩ := hw
    refine ⟨fun hne => absurd rfl hne, by simp, ?_⟩
    simp only [InvW, List.length_append, List.length_cons, List.length_nil, true_and]
    omega
  | wWriteA =>
    cases wpc <;> simp only [step] at h <;> cases h
    simp only [InvW] at hw
    obtain ⟨hk, hpos, hA, hB⟩ := hw
    refine ⟨fun hne => absurd (hrd hne) (by simp), ?_, ?_⟩
    · exact ⟨fun hwf => absurd (hwh.mp hwf) (by simp), fun hne => absurd hne (by simp)⟩
    · simp only [InvW]
      omega
  | wWriteB =>
    cases wpc <;> simp only [step] at h <;> cases h
    simp only [InvW] at hw
    obtain ⟨hk, hpos, hA, hB⟩ := hw
    refine ⟨fun hne => absurd (hrd hne) (by simp), ?_, ?_⟩
    · exact ⟨fun hwf => absurd (hwh.mp hwf) (by simp), fun hne => absurd hne (by simp)⟩
    · simp only [InvW]
      omega
  | wUnlock =>
    cases wpc <;> simp only [step] at h <;> cases h
    simp only [InvW] at hw
    obtain ⟨hk, hpos, hA, hB⟩ := hw
    refine ⟨fun _ => rfl, by simp, ?_⟩
    simp only [InvW]
    omega
  | rLock r =>
    simp only [step] at h
    split at h
    · cases h
    next hnw =>
      split at h
      · cases h
      next hnc =>
        cases h
        have hwf : wh = false := by
          cases wh
          · rfl
          · exact absurd rfl hnw
        have hidle : wpc = WriterPC.idle := hwh.mp hwf
        subst hidle
        exact ⟨fun _ => rfl, ⟨fun _ => rfl, fun _ => hwf⟩, hw⟩
  | rRead r =>
    simp only [step] at h
    split at h
    · cases h
      exact ⟨hrd, hwh, hw⟩
    · cases h
  | rUnlock r =>
    simp only [step] at h
    split at h
    · cases h
      refine ⟨fun hne => hrd ?_, hwh, hw⟩
      intro hnil
      rw [hnil] at hne
      exact hne (List.erase_nil r)
    · cases h

theorem runInv (tr : List Action) (s : CellState) (obs : List Obs)
    (sf : CellState) (obsf : List Obs) (hInv : Inv s)
    (h : runTrace s obs tr = some (sf, obsf)) : Inv sf := by
  induction tr generalizing s obs with
  | nil =>
    simp only [runTrace, Option.some.injEq, Prod.mk.injEq] at h
    rw [← h.1]
    exact hInv
  | cons a rest ih =>
    simp only [runTrace] at h
    cases hst : step s a with
    | none => rw [hst] at h; cases h
    | some p =>
      obtain ⟨s2, o⟩ := p
      rw [hst] at h
      exact ih s2 (obs ++ o.toList) (stepInv s a s2 o hInv hst) h

theorem initCellInv : Inv initCell := by
  refine ⟨fun hne => absurd rfl hne, by simp [initCell], ?_⟩
  simp [initCell, InvW]

theorem stepObsOk (s : CellState) (a : Action) (s2 : CellState) (ob : Obs)
    (hInv : Inv s) (h : step s a = some (s2, some ob)) : ObsOk s.writes ob := by
  obtain ⟨hrd, hwh, hw⟩ := hInv
  cases a with
  | wLock v =>
    simp only [step] at h
    split at h <;> cases h
  | wWriteA =>
    simp only [step] at h
    split at h <;> cases h
  | wWriteB =>
    simp only [step] at h
    split at h <;> cases h
  | wUnlock =>
    simp only [step] at h
    split at h <;> cases h
  | rLock r =>
    simp only [step] at h
    split at h
    · cases h
    · split at h <;> cases h
  | rUnlock r =>
    simp only [step] at h
    split at h <;> cases h
  | rRead r =>
    simp only [step] at h
    split at h
    case isTrue hmem =>
      cases h
      have hne : s.readers ≠ [] := by
        intro hnil
        rw [hnil] at hmem
        simp at hmem
      have hidle := hrd hne
      rw [hidle] at hw
      obtain ⟨ha, hb⟩ := hw
      refine ⟨?_, ?_, ?_⟩
      · show s.partA = s.partB
        rw [ha, hb]
      · intro h0
        have h0A : s.partA = 0 := h0
        show valueOfId s.writes s.partA = ""
        simp [valueOfId, h0A]
      · intro hpos
        have hposA : 0 < s.partA := hpos
        have hAne : s.partA ≠ 0 := Nat.pos_iff_ne_zero.mp hposA
        have hlt : s.partA - 1 < s.writes.length := by omega
        show valueOfId s.writes s.partA ∈ s.writes
        simp only [valueOfId, if_neg hAne, List.getD_eq_getElem?_getD,
          List.getElem?_eq_getElem hlt, Option.getD_some]
        exact List.getElem_mem hlt
    case isFalse => cases h

theorem obsOkMono (ws t : List String) (ob : Obs) (h : ObsOk ws ob) :
    ObsOk (ws ++ t) ob := by
  obtain ⟨h1, h2, h3⟩ := h
  exact ⟨h1, h2, fun hpos => List.mem_append_left t (h3 hpos)⟩

theorem runObsOk (tr : List Action) (s : CellState) (obs0 : List Obs)
    (sf : CellState) (obsf : List Obs) (hInv : Inv s)
    (h : runTrace s obs0 tr = some (sf, obsf)) :
    ∀ ob ∈ obsf, ob ∈ obs0 ∨ ObsOk sf.writes ob := by
  induction tr generalizing s obs0 with
  | nil =>
    simp only [runTrace, Option.some.injEq, Prod.mk.injEq] at h
    rw [← h.2]
    exact fun ob hm => Or.inl hm
  | cons a rest ih =>
    simp only [runTrace] at h
    cases hst : step s a with
    | none => rw [hst] at h; cases h
    | some p =>
      obtain ⟨s2, o⟩ := p
      rw [hst] at h
      intro ob hm
      rcases ih s2 (obs0 ++ o.toList) (stepInv s a s2 o hInv hst) h ob hm with hin | hok
      · rcases List.mem_append.mp hin with hin0 | hinn
        · exact Or.inl hin0
        · cases o with
          | none => simp at hinn
          | some ob2 =>
            simp only [Option.toList, List.mem_singleton] at hinn
            subst hinn
            right
            have hok1 := stepObsOk s a s2 ob hInv hst
            have hw2 := stepWritesEq s a s2 (some ob) hst
            have hwf := runWritesEq rest s2 (obs0 ++ (some ob).toList) sf obsf h
            rw [hwf, hw2, List.append_assoc]
            exact obsOkMono _ _ _ hok1
      · exact Or.inr hok

theorem runTraceAppend (t1 t2 : List Action) (s : CellState) (obs : List Obs) :
    runTrace s obs (t1 ++ t2) =
      match runTrace s obs t1 with
      | none => none
      | some (s2, o2) => runTrace s2 o2 t2 := by
  induction t1 generalizing s obs with
  | nil => simp [runTrace]
  | cons a rest ih =>
    simp only [List.cons_append, runTrace]
    cases hst : step s a with
    | none => rfl
    | some p =>
      obtain ⟨s2, o⟩ := p
      exact ih s2 (obs ++ o.toList)

theorem getDConcat (l : List String) (v d : String) : (l ++ [v]).getD l.length d = v := by
  rw [List.getD_eq_getElem?_getD, List.getElem?_concat_length, Option.getD_some]

theorem watcherSetRun (s : CellState) (obs : List Obs) (v : String) (s2 : CellState)
    (obs2 : List Obs) (h : runTrace s obs (watcherSet v) = some (s2, obs2)) :
    obs2 = obs ∧
      s2 = { writerHeld := false, readers := [], partA := s.writes.length + 1
             partB := s.writes.length + 1, wpc := .idle, writes := s.writes ++ [v] } := by
  obtain ⟨wh, rds, pA, pB, wpc, ws⟩ := s
  cases wpc <;> cases wh <;> cases rds <;>
      simp only [watcherSet, runTrace, step, Option.toList, List.append_nil,
        Option.some.injEq, Prod.mk.injEq] at h <;>
    first
    | exact ⟨h.2.symm, h.1.symm⟩
    | cases h

theorem idleSteady (tr : List Action) (s : CellState) (obs0 : List Obs)
    (sf : CellState) (obsf : List Obs)
    (hidle : s.wpc = WriterPC.idle)
    (hnw : ∀ a ∈ tr, wLockVal a = [])
    (h : runTrace s obs0 tr = some (sf, obsf)) :
    ∀ ob ∈ obsf, ob ∈ obs0 ∨
      (ob.idA = s.partA ∧ ob.value = valueOfId s.writes s.partA) := by
  induction tr generalizing s obs0 with
  | nil =>
    simp only [runTrace, Option.some.injEq, Prod.mk.injEq] at h
    rw [← h.2]
    exact fun ob hm => Or.inl hm
  | cons a rest ih =>
    simp only [runTrace] at h
    cases hst : step s a with
    | none => rw [hst] at h; cases h
    | some p =>
      obtain ⟨s2, o⟩ := p
      rw [hst] at h
      have key : s2.partA = s.partA ∧ s2.writes = s.writes ∧ s2.wpc = WriterPC.idle ∧
          (∀ ob2, o = some ob2 →
            ob2.idA = s.partA ∧ ob2.value = valueOfId s.writes s.partA) := by
        cases a with
        | wLock v =>
          have := hnw _ (List.mem_cons_self _ _)
          simp [wLockVal] at this
        | wWriteA =>
          simp only [step, hidle] at hst
          exact Option.noConfusion hst
        | wWriteB =>
          simp only [step, hidle] at hst
          exact Option.noConfusion hst
        | wUnlock =>
          simp only [step, hidle] at hst
          exact Option.noConfusion hst
        | rLock r =>
          simp only [step] at hst
          split at hst
          · cases hst
          · split at hst
            · cases hst
            · cases hst
              exact ⟨rfl, rfl, hidle, fun ob2 hx => by cases hx⟩
        | rRead r =>
          simp only [step] at hst
          split at hst
          · cases hst
            exact ⟨rfl, rfl, hidle, fun ob2 hx => by cases hx; exact ⟨rfl, rfl⟩⟩
          · cases hst
        | rUnlock r =>
          simp only [step] at hst
          split at hst
          · cases hst
            exact ⟨rfl, rfl, hidle, fun ob2 hx => by cases hx⟩
          · cases hst
      obtain ⟨k1, k2, k3, k4⟩ := key
      have ihres := ih s2 (obs0 ++ o.toList) k3
        (fun b hb => hnw b (List.mem_cons_of_mem a hb)) h
      intro ob hob
      rcases ihres ob hob with hin | hpp
      · rcases List.mem_append.mp hin with h0 | hsing
        · exact Or.inl h0
        · cases o with
          | none => simp at hsing
          | some ob2 =>
            simp only [Option.toList, List.mem_singleton] at hsing
            subst hsing
            exact Or.inr (k4 ob rfl)
      · right
        rw [k1, k2] at hpp
        exact hpp

theorem runWatchNeverReturns (rs : List (Except String Snapshot)) :
    ∀ (motd : String) (logs : List LogEvent),
      (runWatch motd logs rs).isReturned = false := by
  induction rs with
  | nil => intro motd logs; rfl
  | cons r rest ih =>
    intro motd logs
    cases r with
    | error e => exact ih motd (logs ++ [{ sev := none, msg := "watch MOTD variable: " ++ e }])
    | ok snap =>
      cases hv : snap.value with
      | str s =>
        simp only [runWatch, watchIter, hv]
        exact ih s _
      | other tag =>
        simp only [runWatch, watchIter, hv]
        rfl

/-- C1 counterexample: in the unnamed bootstrap (`src/unnamed/part_000`)
the recovery handler logs the recovered panic with the unleveled
standard-library `log.Printf`, not at error severity, so the claim that
the recovery stage logs the stack trace at error severity fails there. -/
theorem panic_recovery_severity_counterexample :
    (panicHandlerUnnamed "goroutine 1:" (GoValue.str "boom")).logged.sev ≠
      some Severity.error := by
  decide

/-- C1 (amended): for every call in which the registered handler panics,
the recovery handler captures the full stack trace in its log message — at
error severity in the todo variant, via the unleveled standard logger in
the unnamed variant — and returns a structured error classified internal
rather than re-panicking; the chained call's outcome is that internal
error, a panic never escapes any chained call, and the server dispatches
every call independently, so calls after a panicking call behave exactly
as their own chain run. -/
theorem panic_recovery_policy (stack : String) (p : GoValue) (h : Handler)
    (req : GoValue) (reqs : List GoValue)
    (hp : h req = Outcome.panicked p) :
    (panicHandlerTodo stack p).logged.sev = some Severity.error ∧
    (panicHandlerTodo stack p).logged.msg = "panic recovered: " ++ stack ∧
    (panicHandlerUnnamed stack p).logged.msg = "panic recovered: " ++ stack ∧
    (panicHandlerTodo stack p).returned.code = Code.internal ∧
    (panicHandlerUnnamed stack p).returned.code = Code.internal ∧
    (runChain stack unaryChain h req).outcome =
      Outcome.err { code := Code.internal, msg := goFormat p } ∧
    (∀ (req2 q : GoValue),
      (runChain stack unaryChain h req2).outcome ≠ Outcome.panicked q) ∧
    (∀ j : Nat, (serveCalls stack h reqs)[j]? =
      (reqs[j]?).map (runChain stack unaryChain h)) := by
  refine ⟨rfl, rfl, rfl, rfl, rfl, ?_, ?_, ?_⟩
  · simp [runChain, runStage, unaryChain, hp, panicHandlerTodo]
  · intro req2 q
    cases hr : h req2 <;>
      simp [runChain, runStage, unaryChain, hr, panicHandlerTodo]
  · intro j
    simp [serveCalls, List.getElem?_map]

theorem panic_recovery_policy_witness :
    (fun (_ : GoValue) => Outcome.panicked (GoValue.str "boom")) (GoValue.str "req") =
        Outcome.panicked (GoValue.str "boom") ∧
      (panicHandlerTodo "stacktrace" (GoValue.str "boom")).logged.sev =
        some Severity.error :=
  ⟨rfl, (panic_recovery_policy "stacktrace" (GoValue.str "boom")
    (fun _ => Outcome.panicked (GoValue.str "boom")) (GoValue.str "req") [] rfl).1⟩

/-- C2 counterexample: in the todo bootstrap a failed `grpc.Dial` for the
gateway's client connection panics (`"Couldn't contact grpc server"`), so
the startup failure is fatal to the process — refuting the claim that a
gateway connection-establishment failure is never fatal. -/
theorem gateway_dial_fatal_counterexample :
    (startTodo { bindGrpc := ":7787", listenRes := .ok (), tracerRes := .ok ()
                 dialRes := .error "connection refused", registerRes := .ok () }).proc =
        ProcState.panicked "Couldn't contact grpc server" ∧
      (startTodo { bindGrpc := ":7787", listenRes := .ok (), tracerRes := .ok ()
                   dialRes := .error "connection refused",
                   registerRes := .ok () }).proc.isFatal = true :=
  ⟨rfl, rfl⟩

/-- C2 (amended): in the unnamed bootstrap a failure to establish the
gateway's client connection is logged and is not fatal — the process keeps
running and the gateway reaches its serve loop degraded — whereas in the
todo bootstrap the same dial failure panics, terminating the process. -/
theorem gateway_connection_failure (e : String) :
    ((startUnnamed { env := "local", bindGrpc := "7788", setupRes := .ok ()
                     listenRes := .ok (), dialRes := .error e
                     registerRes := .ok () }).proc = ProcState.serving ∧
      (startUnnamed { env := "local", bindGrpc := "7788", setupRes := .ok ()
                      listenRes := .ok (), dialRes := .error e
                      registerRes := .ok () }).proc.isFatal = false ∧
      (startUnnamed { env := "local", bindGrpc := "7788", setupRes := .ok ()
                      listenRes := .ok (), dialRes := .error e
                      registerRes := .ok () }).gatewayServing = true ∧
      (startUnnamed { env := "local", bindGrpc := "7788", setupRes := .ok ()
                      listenRes := .ok (), dialRes := .error e
                      registerRes := .ok () }).logs =
        [{ sev := none, msg := "Couldn't contact grpc server: " ++ e }]) ∧
    (startTodo { bindGrpc := ":7787", listenRes := .ok (), tracerRes := .ok ()
                 dialRes := .error e, registerRes := .ok () }).proc =
      ProcState.panicked "Couldn't contact grpc server" := by
  exact ⟨⟨rfl, rfl, rfl, rfl⟩, rfl⟩

/-- C3: the interceptor chains installed by `grpc.NewServer` in
`src/todo/main.go` have, for both streaming and unary calls, the fixed
stage order (1) request tagging, (2) tracing, (3) metrics, (4) structured
logging, (5) panic recovery, with recovery the last (innermost) stage
directly wrapping the handler; when the handler panics, the chained call's
outcome is the converted internal error and each of the four observability
stages observes exactly that failed-call outcome. -/
theorem interceptor_chain_order (stack : String) (h : Handler) (req : GoValue)
    (p : GoValue) (hp : h req = Outcome.panicked p) :
    streamChain = [Stage.ctxtags, Stage.opentracing, Stage.prometheus,
      Stage.logrus, Stage.recovery] ∧
    unaryChain = streamChain ∧
    streamChain.getLast? = some Stage.recovery ∧
    (runChain stack unaryChain h req).outcome =
      Outcome.err { code := Code.internal, msg := goFormat p } ∧
    (runChain stack unaryChain h req).observations =
      [(Stage.logrus, Outcome.err { code := Code.internal, msg := goFormat p }),
       (Stage.prometheus, Outcome.err { code := Code.internal, msg := goFormat p }),
       (Stage.opentracing, Outcome.err { code := Code.internal, msg := goFormat p }),
       (Stage.ctxtags, Outcome.err { code := Code.internal, msg := goFormat p })] := by
  refine ⟨rfl, rfl, rfl, ?_, ?_⟩ <;>
    simp [runChain, runStage, unaryChain, hp, panicHandlerTodo]

theorem interceptor_chain_order_witness :
    (fun (_ : GoValue) => Outcome.panicked (GoValue.str "boom")) (GoValue.str "req") =
        Outcome.panicked (GoValue.str "boom") ∧
      (runChain "trace" unaryChain (fun _ => Outcome.panicked (GoValue.str "boom"))
          (GoValue.str "req")).outcome =
        Outcome.err { code := Code.internal, msg := goFormat (GoValue.str "boom") } :=
  ⟨rfl, (interceptor_chain_order "trace"
    (fun _ => Outcome.panicked (GoValue.str "boom")) (GoValue.str "req")
    (GoValue.str "boom") rfl).2.2.2.1⟩

/-- C4: a failure to bind the RPC listener is fatal in both bootstraps:
the todo variant exits through `log.Fatalf` (exit status 1, failure
reported in the fatal log), the unnamed variant logs the failure and
panics with the error (exit status 2); in both, the failure immediately
terminates startup with a non-zero exit status — there is no retry path. -/
theorem listener_bind_failure_fatal (e : String) :
    ((startTodo { bindGrpc := ":7787", listenRes := .error e, tracerRes := .ok ()
                  dialRes := .ok (), registerRes := .ok () }).proc =
        ProcState.fatalLog ("Failed to listen: :7787") ∧
      (startTodo { bindGrpc := ":7787", listenRes := .error e, tracerRes := .ok ()
                   dialRes := .ok (), registerRes := .ok () }).proc.exitCode = some 1 ∧
      (startTodo { bindGrpc := ":7787", listenRes := .error e, tracerRes := .ok ()
                   dialRes := .ok (), registerRes := .ok () }).proc.isFatal = true) ∧
    ((startUnnamed { env := "local", bindGrpc := "7788", setupRes := .ok ()
                     listenRes := .error e, dialRes := .ok ()
                     registerRes := .ok () }).proc = ProcState.panicked e ∧
      (startUnnamed { env := "local", bindGrpc := "7788", setupRes := .ok ()
                      listenRes := .error e, dialRes := .ok ()
                      registerRes := .ok () }).proc.exitCode = some 2 ∧
      (startUnnamed { env := "local", bindGrpc := "7788", setupRes := .ok ()
                      listenRes := .error e, dialRes := .ok ()
                      registerRes := .ok () }).logs =
        [{ sev := none, msg := "Failed to listen: 127.0.0.1:7788" }]) := by
  exact ⟨⟨rfl, rfl, rfl⟩, ⟨rfl, rfl, rfl⟩⟩

/-- C5: each iteration of the `watchMOTDVar` loop behaves as specified: a
successful watch carrying string value s updates the MOTD state to s, logs
the transition and continues with zero delay; a watch error logs the error,
leaves the MOTD state unchanged and continues with zero delay; and the
loop never terminates normally — no run of the loop body breaks or
returns, so a run over any finite schedule is still running or crashed,
never returned. -/
theorem watcher_loop_behavior (motd s e : String)
    (rs : List (Except String Snapshot)) (lg : List LogEvent) :
    watchIter motd (Except.ok ⟨GoValue.str s⟩) =
      { control := IterControl.cont s
        logs := [{ sev := none, msg := "updated MOTD to " ++ s }], delayMs := 0 } ∧
    watchIter motd (Except.error e) =
      { control := IterControl.cont motd
        logs := [{ sev := none, msg := "watch MOTD variable: " ++ e }], delayMs := 0 } ∧
    (runWatch motd lg rs).isReturned = false :=
  ⟨rfl, rfl, runWatchNeverReturns rs motd lg⟩

/-- C6: the SharedState cell is created at application construction
(`newApplication`) holding the zero/empty value with an empty write
history; every step of the cell semantics that changes the stored halves
or the write history is one of the writer's lock-guarded actions, all of
which belong to the watcher's set sequence and none to a (spec-modelled)
reader's get sequence; and in any valid schedule the recorded write
history is exactly the sequence of set values in trace order — the single
writer's writes are totally ordered. -/
theorem shared_state_single_writer (s s2 : CellState) (a : Action) (o : Option Obs)
    (r : Nat) (tr : List Action) (sf : CellState) (obsf : List Obs)
    (hstep : step s a = some (s2, o))
    (hrun : runTrace initCell [] tr = some (sf, obsf)) :
    valueOfId initCell.writes initCell.partA = "" ∧
    initCell.writes = [] ∧
    (s2.partA ≠ s.partA ∨ s2.partB ≠ s.partB ∨ s2.writes ≠ s.writes →
      a.isWriterAction = true) ∧
    (∀ v, ∀ b ∈ watcherSet v, b.isWriterAction = true) ∧
    (∀ b ∈ readerGet r, b.isWriterAction = false) ∧
    sf.writes = wLockValues tr := by
  refine ⟨rfl, rfl, ?_, ?_, ?_, ?_⟩
  · intro hchange
    cases a with
    | wLock v => rfl
    | wWriteA => rfl
    | wWriteB => rfl
    | wUnlock => rfl
    | rLock q =>
      exfalso
      simp only [step] at hstep
      split at hstep
      · cases hstep
      · split at hstep
        · cases hstep
        · cases hstep
          rcases hchange with hc | hc | hc <;> exact hc rfl
    | rRead q =>
      exfalso
      simp only [step] at hstep
      split at hstep
      · cases hstep
        rcases hchange with hc | hc | hc <;> exact hc rfl
      · cases hstep
    | rUnlock q =>
      exfalso
      simp only [step] at hstep
      split at hstep
      · cases hstep
        rcases hchange with hc | hc | hc <;> exact hc rfl
      · cases hstep
  · intro v b hb
    simp only [watcherSet, List.mem_cons, List.not_mem_nil, or_false] at hb
    rcases hb with rfl | rfl | rfl | rfl <;> rfl
  · intro b hb
    simp only [readerGet, List.mem_cons, List.not_mem_nil, or_false] at hb
    rcases hb with rfl | rfl | rfl <;> rfl
  · have := runWritesEq tr initCell [] sf obsf hrun
    simpa using this

theorem shared_state_single_writer_witness :
    Action.isWriterAction (Action.wLock "x") = true :=
  (shared_state_single_writer initCell
      { writerHeld := true, readers := [], partA := 0, partB := 0
        wpc := .locked 1, writes := ["x"] }
      (Action.wLock "x") none 0 [] initCell [] rfl rfl).2.2.1
    (Or.inr (Or.inr (by decide)))

/-- C7 counterexample: in the schedule `c7Trace` a get completes before the
only set (of "hello"); it returns the zero value "" installed at
construction, which is not among the values ever passed to set — so "every
get returns a value that was set at some point", as stated, fails. -/
theorem shared_state_reads_counterexample :
    runTrace initCell [] c7Trace =
      some ({ writerHeld := false, readers := [], partA := 1, partB := 1
              wpc := .idle, writes := ["hello"] },
        [{ reader := 0, idA := 0, idB := 0, value := "" }]) ∧
    "" ∉ wLockValues c7Trace := by
  exact ⟨rfl, by decide⟩

/-- C7 (amended): in every valid concurrent schedule of lock-guarded gets
and sets on the SharedState cell, every completed get observes both
half-words stamped by one and the same write — never a mixture of two
writes — and its value is either the zero/empty value installed at
construction (write id 0) or one of the values set at some point in the
schedule. -/
theorem shared_state_no_torn_reads (tr : List Action) (sf : CellState)
    (obsf : List Obs) (hrun : runTrace initCell [] tr = some (sf, obsf)) :
    ∀ ob ∈ obsf, ob.idA = ob.idB ∧ (ob.idA = 0 → ob.value = "") ∧
      (0 < ob.idA → ob.value ∈ wLockValues tr) := by
  intro ob hob
  rcases runObsOk tr initCell [] sf obsf initCellInv hrun ob hob with hin | hok
  · simp at hin
  · obtain ⟨h1, h2, h3⟩ := hok
    refine ⟨h1, h2, fun hpos => ?_⟩
    have hw := runWritesEq tr initCell [] sf obsf hrun
    have hm := h3 hpos
    rw [hw] at hm
    simpa [initCell] using hm

theorem shared_state_no_torn_reads_witness :
    ({ reader := 0, idA := 0, idB := 0, value := "" } : Obs).idA =
      ({ reader := 0, idA := 0, idB := 0, value := "" } : Obs).idB :=
  (shared_state_no_torn_reads [Action.rLock 0, Action.rRead 0]
      { writerHeld := false, readers := [0], partA := 0, partB := 0
        wpc := .idle, writes := [] }
      [{ reader := 0, idA := 0, idB := 0, value := "" }] rfl
      { reader := 0, idA := 0, idB := 0, value := "" } (by decide)).1

/-- C8: if the watcher completes its lock-guarded set of a value V and no
later set begins, then every get completed afterwards observes exactly V —
last-writer-wins with no regression to an older value. -/
theorem shared_state_eventual_value (V : String) (pre post : List Action)
    (s1 : CellState) (o1 : List Obs) (sf : CellState) (obsf : List Obs)
    (h1 : runTrace initCell [] (pre ++ watcherSet V) = some (s1, o1))
    (hnw : ∀ a ∈ post, wLockVal a = [])
    (h2 : runTrace s1 [] post = some (sf, obsf)) :
    ∀ ob ∈ obsf, ob.value = V := by
  rw [runTraceAppend] at h1
  cases hp : runTrace initCell [] pre with
  | none => rw [hp] at h1; cases h1
  | some q =>
    obtain ⟨sp, op⟩ := q
    rw [hp] at h1
    obtain ⟨ho, hs⟩ := watcherSetRun sp op V s1 o1 h1
    have hidle : s1.wpc = WriterPC.idle := by rw [hs]
    have hsteady := idleSteady post s1 [] sf obsf hidle hnw h2
    intro ob hob
    rcases hsteady ob hob with hin | ⟨hA, hval⟩
    · simp at hin
    · rw [hval, hs]
      show valueOfId (sp.writes ++ [V]) (sp.writes.length + 1) = V
      simp only [valueOfId, if_neg (Nat.succ_ne_zero sp.writes.length),
        Nat.add_sub_cancel]
      exact getDConcat sp.writes V ""

theorem shared_state_eventual_value_witness :
    (∀ a ∈ [Action.rLock 0, Action.rRead 0], wLockVal a = []) ∧
      ({ reader := 0, idA := 1, idB := 1, value := "hi" } : Obs).value = "hi" :=
  ⟨by decide,
    shared_state_eventual_value "hi" [] [Action.rLock 0, Action.rRead 0]
      { writerHeld := false, readers := [], partA := 1, partB := 1
        wpc := .idle, writes := ["hi"] }
      []
      { writerHeld := false, readers := [0], partA := 1, partB := 1
        wpc := .idle, writes := ["hi"] }
      [{ reader := 0, idA := 1, idB := 1, value := "hi" }]
      rfl (by decide) rfl
      { reader := 0, idA := 1, idB := 1, value := "hi" } (by decide)⟩

/-- C9 counterexample: two startup exit paths release nothing: in the
unnamed bootstrap a `setupLocal` failure exits through `log.Fatal` before
`defer cleanup()` is registered, so no cleanup routine runs; and in the
todo bootstrap the Jaeger-init failure path exits with the listener
acquired and nothing released (the todo variant moreover never releases
the listener or store connection on any path). -/
theorem cleanup_every_exit_counterexample :
    (startUnnamed { env := "local", bindGrpc := "7788"
                    setupRes := .error "setup: store unreachable"
                    listenRes := .ok (), dialRes := .ok ()
                    registerRes := .ok () }).cleanupInvoked = false ∧
    (startTodo { bindGrpc := ":7787", listenRes := .ok ()
                 tracerRes := .error "no agent", dialRes := .ok ()
                 registerRes := .ok () }).acquired = [Resource.listener] ∧
    (startTodo { bindGrpc := ":7787", listenRes := .ok ()
                 tracerRes := .error "no agent", dialRes := .ok ()
                 registerRes := .ok () }).released = [] :=
  ⟨rfl, rfl, rfl⟩

/-- C9 (amended): in the unnamed bootstrap the setup-provided cleanup
routine is registered only after a successful setup and is invoked on
every terminating exit path reached after that registration (the
listen-failure panic runs it), but the exit paths before registration —
setup failure (and unknown env) — terminate without invoking any cleanup;
the todo bootstrap has no single cleanup routine at all: at most the
tracer handle is released by its own deferred close, never the listener or
the store connection. -/
theorem cleanup_not_on_every_exit (i : UnnamedStartInput) (j : TodoStartInput)
    (hl : i.env = "local") :
    (∀ e, i.setupRes = .error e → (startUnnamed i).cleanupInvoked = false) ∧
    (∀ u, i.setupRes = .ok u → (startUnnamed i).cleanupRegistered = true ∧
      ((startUnnamed i).proc.isFatal = true → (startUnnamed i).cleanupInvoked = true)) ∧
    (∀ x ∈ (startTodo j).released, x = Resource.tracerHandle) := by
  refine ⟨?_, ?_, ?_⟩
  · intro e he
    simp [startUnnamed, hl, he]
  · intro u hu
    cases hls : i.listenRes with
    | error e2 =>
      constructor <;> simp [startUnnamed, hl, hu, hls]
    | ok u2 =>
      constructor
      · simp [startUnnamed, hl, hu, hls]
      · intro hf
        simp [startUnnamed, hl, hu, hls, ProcState.isFatal] at hf
  · intro x hx
    obtain ⟨bg, jl, jt, jd, jr⟩ := j
    cases jl <;> cases jt <;> cases jd <;> cases jr <;>
      simp [startTodo] at hx <;> exact hx

theorem cleanup_not_on_every_exit_witness :
    (startUnnamed { env := "local", bindGrpc := "7788"
                    setupRes := .error "boom", listenRes := .ok ()
                    dialRes := .ok (), registerRes := .ok () }).cleanupInvoked = false :=
  (cleanup_not_on_every_exit
      { env := "local", bindGrpc := "7788", setupRes := .error "boom"
        listenRes := .ok (), dialRes := .ok (), registerRes := .ok () }
      { bindGrpc := ":7787", listenRes := .ok (), tracerRes := .ok ()
        dialRes := .ok (), registerRes := .ok () }
      rfl).1 "boom" rfl

/-- C10: the watcher's update step applies the unguarded type assertion
`snap.Value.(string)` to the received snapshot: a successful watch whose
value is not a string makes the iteration panic — and a run meeting such a
snapshot crashes, terminating the bare watcher goroutine spawned by
`newApplication` with no recovery interceptor around it, which brings down
the Go process — while a new MOTD value is stored only when the asserted
value is exactly that string. -/
theorem watcher_type_assertion (motd m : String) (snap : Snapshot) :
    (snap.value.isString = false →
      (watchIter motd (Except.ok snap)).control =
        IterControl.panicked "interface conversion: interface {} is not string") ∧
    ((watchIter motd (Except.ok snap)).control = IterControl.cont m → m ≠ motd →
      snap.value = GoValue.str m) ∧
    (∀ tag, (runWatch motd [] [Except.ok ⟨GoValue.other tag⟩]).isCrashed = true) := by
  refine ⟨?_, ?_, fun tag => rfl⟩
  · intro hns
    cases hv : snap.value with
    | str s => rw [hv] at hns; cases hns
    | other tag => simp [watchIter, hv]
  · intro hc hne
    cases hv : snap.value with
    | str s =>
      simp only [watchIter, hv, IterControl.cont.injEq] at hc
      rw [hc]
    | other tag =>
      simp only [watchIter, hv] at hc
      cases hc

theorem watcher_type_assertion_witness :
    (GoValue.other "int64").isString = false ∧
      (watchIter "old" (Except.ok ⟨GoValue.other "int64"⟩)).control =
        IterControl.panicked "interface conversion: interface {} is not string" :=
  ⟨rfl, (watcher_type_assertion "old" "x" ⟨GoValue.other "int64"⟩).1 rfl⟩

end Monorepo
